import Mathlib

/-!
Verification development for the keyword-to-book generation service.

JavaScript strings are modelled as lists of characters (`Str`), fallible
JavaScript code as `Option`/`Except`, and the external collaborators
(the JSON parser built into the runtime, the slugify library, the remote
generation endpoint and the key-value store) as explicit executable
models or oracles passed in as parameters.
-/

/-- JavaScript strings are modelled as lists of characters. -/
abbrev Str := List Char

/-- Embed a Lean string literal as a modelled JavaScript string. -/
def js (s : String) : Str := s.data

/-- The opening curly brace character. -/
def lbrace : Char := Char.ofNat 123

/-- The closing curly brace character. -/
def rbrace : Char := Char.ofNat 125

/-- JSON values as produced by the runtime JSON parser.  Numbers keep their
source lexeme (the claims under verification never compare numeric values
across distinct lexemes); object fields keep their textual order. -/
inductive Json where
  | null
  | bool (b : Bool)
  | num (lexeme : Str)
  | str (s : Str)
  | arr (elems : List Json)
  | obj (fields : List (Str × Json))
deriving Repr

/-- JSON whitespace accepted between tokens by the runtime parser. -/
def jsonWsChar (c : Char) : Bool :=
  c = ' ' || c = '\t' || c = '\n' || c = '\r'

/-- Skip JSON whitespace. -/
def skipWs (s : Str) : Str := s.dropWhile jsonWsChar

/-- Value of one hexadecimal digit. -/
def hexVal (c : Char) : Option Nat :=
  if c.isDigit then some (c.toNat - 48)
  else if 'a' ≤ c ∧ c ≤ 'f' then some (c.toNat - 87)
  else if 'A' ≤ c ∧ c ≤ 'F' then some (c.toNat - 55)
  else none

/-- Parse exactly four hexadecimal digits (the payload of a \u escape). -/
def parseHex4 (s : Str) : Option (Nat × Str) :=
  match s with
  | a :: b :: c :: d :: r =>
    match hexVal a, hexVal b, hexVal c, hexVal d with
    | some va, some vb, some vc, some vd => some ((((va * 16 + vb) * 16 + vc) * 16 + vd), r)
    | _, _, _, _ => none
  | _ => none

/-- Parse the body of a JSON string (the opening quote already consumed),
decoding escape sequences; returns the decoded content and the rest of the
input after the closing quote.  Fuelled for termination; the caller passes
at least the length of the input. -/
def parseStringBody : Nat → Str → Option (Str × Str)
  | 0, _ => none
  | _, [] => none
  | fuel + 1, c :: r =>
    if c = '"' then some ([], r)
    else if c.toNat < 32 then none
    else if c = '\\' then
      match r with
      | [] => none
      | e :: r2 =>
        if e = '"' then (parseStringBody fuel r2).map (fun p => ('"' :: p.1, p.2))
        else if e = '\\' then (parseStringBody fuel r2).map (fun p => ('\\' :: p.1, p.2))
        else if e = '/' then (parseStringBody fuel r2).map (fun p => ('/' :: p.1, p.2))
        else if e = 'b' then (parseStringBody fuel r2).map (fun p => (Char.ofNat 8 :: p.1, p.2))
        else if e = 'f' then (parseStringBody fuel r2).map (fun p => (Char.ofNat 12 :: p.1, p.2))
        else if e = 'n' then (parseStringBody fuel r2).map (fun p => ('\n' :: p.1, p.2))
        else if e = 'r' then (parseStringBody fuel r2).map (fun p => ('\r' :: p.1, p.2))
        else if e = 't' then (parseStringBody fuel r2).map (fun p => ('\t' :: p.1, p.2))
        else if e = 'u' then
          match parseHex4 r2 with
          | some (n, r3) => (parseStringBody fuel r3).map (fun p => (Char.ofNat n :: p.1, p.2))
          | none => none
        else none
    else (parseStringBody fuel r).map (fun p => (c :: p.1, p.2))

/-- Optional fraction part of a JSON number; returns its lexeme and the rest. -/
def parseFrac (s : Str) : Option (Str × Str) :=
  match s with
  | c :: r =>
    if c = '.' then
      let ds := r.takeWhile Char.isDigit
      if ds = [] then none else some ('.' :: ds, r.dropWhile Char.isDigit)
    else some ([], s)
  | [] => some ([], s)

/-- Optional exponent part of a JSON number; returns its lexeme and the rest. -/
def parseExp (s : Str) : Option (Str × Str) :=
  match s with
  | c :: r =>
    if c = 'e' ∨ c = 'E' then
      let signSplit : Str × Str :=
        match r with
        | d :: r2 => if d = '+' ∨ d = '-' then ([d], r2) else ([], r)
        | [] => ([], r)
      let ds := signSplit.2.takeWhile Char.isDigit
      if ds = [] then none
      else some (c :: signSplit.1 ++ ds, signSplit.2.dropWhile Char.isDigit)
    else some ([], s)
  | [] => some ([], s)

/-- Parse a JSON number at the head of the input, returning its lexeme and
the rest.  Follows the JSON grammar: optional minus sign, an integer part
with no leading zeros, optional fraction and exponent. -/
def parseNumberLex (s : Str) : Option (Str × Str) :=
  let signSplit : Str × Str :=
    match s with
    | c :: r => if c = '-' then ([c], r) else ([], s)
    | [] => ([], [])
  match signSplit.2 with
  | [] => none
  | c :: r =>
    if c = '0' then
      match parseFrac r with
      | none => none
      | some (fr, r2) =>
        match parseExp r2 with
        | none => none
        | some (ex, r3) => some (signSplit.1 ++ [c] ++ fr ++ ex, r3)
    else if c.isDigit then
      let ds := (c :: r).takeWhile Char.isDigit
      match parseFrac ((c :: r).dropWhile Char.isDigit) with
      | none => none
      | some (fr, r2) =>
        match parseExp r2 with
        | none => none
        | some (ex, r3) => some (signSplit.1 ++ ds ++ fr ++ ex, r3)
    else none

mutual

/-- Parse one JSON value at the head of the input (no leading whitespace). -/
def parseValue : Nat → Str → Option (Json × Str)
  | 0, _ => none
  | fuel + 1, s =>
    match s with
    | [] => none
    | c :: r =>
      if c = lbrace then parseObjBody fuel (skipWs r)
      else if c = '[' then parseArrBody fuel (skipWs r)
      else if c = '"' then (parseStringBody (r.length + 1) r).map (fun p => (Json.str p.1, p.2))
      else if c = 't' then
        match r with
        | 'r' :: 'u' :: 'e' :: r2 => some (Json.bool true, r2)
        | _ => none
      else if c = 'f' then
        match r with
        | 'a' :: 'l' :: 's' :: 'e' :: r2 => some (Json.bool false, r2)
        | _ => none
      else if c = 'n' then
        match r with
        | 'u' :: 'l' :: 'l' :: r2 => some (Json.null, r2)
        | _ => none
      else if c = '-' ∨ c.isDigit then (parseNumberLex s).map (fun p => (Json.num p.1, p.2))
      else none

/-- Parse the inside of a JSON array (after the opening bracket, whitespace
already skipped). -/
def parseArrBody : Nat → Str → Option (Json × Str)
  | 0, _ => none
  | fuel + 1, s =>
    match s with
    | [] => none
    | c :: r =>
      if c = ']' then some (Json.arr [], r)
      else
        match parseValue fuel (c :: r) with
        | some (v, rest) => parseArrTail fuel [v] (skipWs rest)
        | none => none

/-- Parse the rest of a JSON array after at least one element. -/
def parseArrTail : Nat → List Json → Str → Option (Json × Str)
  | 0, _, _ => none
  | fuel + 1, acc, s =>
    match s with
    | [] => none
    | c :: r =>
      if c = ']' then some (Json.arr acc.reverse, r)
      else if c = ',' then
        match parseValue fuel (skipWs r) with
        | some (v, rest) => parseArrTail fuel (v :: acc) (skipWs rest)
        | none => none
      else none

/-- Parse one key-value member of a JSON object. -/
def parseObjMember : Nat → Str → Option ((Str × Json) × Str)
  | 0, _ => none
  | fuel + 1, s =>
    match s with
    | [] => none
    | c :: r =>
      if c = '"' then
        match parseStringBody (r.length + 1) r with
        | some (k, r2) =>
          match skipWs r2 with
          | c2 :: r3 =>
            if c2 = ':' then
              match parseValue fuel (skipWs r3) with
              | some (v, rest) => some ((k, v), rest)
              | none => none
            else none
          | [] => none
        | none => none
      else none

/-- Parse the inside of a JSON object (after the opening brace, whitespace
already skipped). -/
def parseObjBody : Nat → Str → Option (Json × Str)
  | 0, _ => none
  | fuel + 1, s =>
    match s with
    | [] => none
    | c :: r =>
      if c = rbrace then some (Json.obj [], r)
      else
        match parseObjMember fuel (c :: r) with
        | some (kv, rest) => parseObjTail fuel [kv] (skipWs rest)
        | none => none

/-- Parse the rest of a JSON object after at least one member. -/
def parseObjTail : Nat → List (Str × Json) → Str → Option (Json × Str)
  | 0, _, _ => none
  | fuel + 1, acc, s =>
    match s with
    | [] => none
    | c :: r =>
      if c = rbrace then some (Json.obj acc.reverse, r)
      else if c = ',' then
        match parseObjMember fuel (skipWs r) with
        | some (kv, rest) => parseObjTail fuel (kv :: acc) (skipWs rest)
        | none => none
      else none

end

/-- Model of the runtime `JSON.parse`: parses a complete JSON document,
rejecting trailing non-whitespace.  Returns `none` where `JSON.parse`
throws a `SyntaxError`. -/
def jsonParse (s : Str) : Option Json :=
  match parseValue (s.length + 2) (skipWs s) with
  | some (v, rest) => if skipWs rest = [] then some v else none
  | none => none

/-- Escape a string for JSON serialization (quote, backslash and the common
control characters; other code points are emitted verbatim, as
`JSON.stringify` does for printable text). -/
def jsonEscape : Str → Str
  | [] => []
  | c :: r =>
    if c = '"' then '\\' :: '"' :: jsonEscape r
    else if c = '\\' then '\\' :: '\\' :: jsonEscape r
    else if c = '\n' then '\\' :: 'n' :: jsonEscape r
    else if c = '\r' then '\\' :: 'r' :: jsonEscape r
    else if c = '\t' then '\\' :: 't' :: jsonEscape r
    else if c = Char.ofNat 8 then '\\' :: 'b' :: jsonEscape r
    else if c = Char.ofNat 12 then '\\' :: 'f' :: jsonEscape r
    else c :: jsonEscape r

/-- Quote and escape a string as a JSON string literal. -/
def strQuote (s : Str) : Str := '"' :: jsonEscape s ++ ['"']

mutual

/-- Model of `JSON.stringify` on the values this service serializes.
Numbers are reproduced from their stored lexeme. -/
def jsonStringify : Json → Str
  | Json.null => js "null"
  | Json.bool true => js "true"
  | Json.bool false => js "false"
  | Json.num l => l
  | Json.str s => strQuote s
  | Json.arr xs => '[' :: jsonStringifyElems xs ++ [']']
  | Json.obj fs => lbrace :: jsonStringifyFields fs ++ [rbrace]

/-- Serialize array elements, comma-separated. -/
def jsonStringifyElems : List Json → Str
  | [] => []
  | [x] => jsonStringify x
  | x :: y :: r => jsonStringify x ++ ',' :: jsonStringifyElems (y :: r)

/-- Serialize object members, comma-separated. -/
def jsonStringifyFields : List (Str × Json) → Str
  | [] => []
  | [(k, v)] => strQuote k ++ ':' :: jsonStringify v
  | (k, v) :: q :: r => strQuote k ++ ':' :: jsonStringify v ++ ',' :: jsonStringifyFields (q :: r)

end

mutual

/-- String interpolation of a JavaScript value inside a template literal
(`${x}`): strings verbatim, numbers by their lexeme, arrays joined with
commas (null elements become empty, as in `Array.prototype.toString`),
plain objects as "[object Object]". -/
def jsDisplayVal : Json → Str
  | Json.null => js "null"
  | Json.bool true => js "true"
  | Json.bool false => js "false"
  | Json.num l => l
  | Json.str s => s
  | Json.arr xs => jsDisplayElems xs
  | Json.obj _ => js "[object Object]"

/-- Comma-joined display of array elements. -/
def jsDisplayElems : List Json → Str
  | [] => []
  | [Json.null] => []
  | [x] => jsDisplayVal x
  | Json.null :: y :: r => ',' :: jsDisplayElems (y :: r)
  | x :: y :: r => jsDisplayVal x ++ ',' :: jsDisplayElems (y :: r)

end

/-- Interpolation of a possibly-undefined value (`undefined` prints as the
string "undefined" inside a template literal). -/
def jsDisplay : Option Json → Str
  | none => js "undefined"
  | some v => jsDisplayVal v

/-- JavaScript property read `obj[k]` on a parsed JSON value: defined only
for objects; later duplicate keys win, as in the runtime.  `none` models
`undefined`. -/
def getField (j : Json) (k : Str) : Option Json :=
  match j with
  | Json.obj fields => ((fields.filter (fun p => p.1 = k)).getLast?).map Prod.snd
  | _ => none

/-- JavaScript array/string indexing `x[i]`; `none` models `undefined`. -/
def jsIndex (j : Json) (i : Nat) : Option Json :=
  match j with
  | Json.arr l => l.get? i
  | Json.str s => (s.get? i).map (fun c => Json.str [c])
  | _ => none

/-- JavaScript truthiness of a parsed JSON value (empty string, `0`,
`false` and `null` are falsy; every array and object is truthy). -/
def jsFalsy : Json → Bool
  | Json.null => true
  | Json.bool b => !b
  | Json.num l => l = js "0" || l = js "-0"
  | Json.str s => s.isEmpty
  | Json.arr _ => false
  | Json.obj _ => false

/-- Truthiness of a possibly-absent JSON value (`undefined` is falsy). -/
def jsOptFalsy : Option Json → Bool
  | none => true
  | some j => jsFalsy j

/-- Falsiness of a possibly-null string (`null` and the empty string are
falsy). -/
def optStrFalsy : Option Str → Bool
  | none => true
  | some s => s.isEmpty

/-- The scanner state of `extractJSON` (src/utils.js:12): brace nesting
depth, start offset of the current candidate span, and the in-string /
escape flags. -/
structure ScanSt where
  depth : Nat
  start : Option Nat
  inString : Bool
  escape : Bool
deriving Repr, DecidableEq

/-- The initial scanner state (`depth = 0, start = null` and both flags
down). -/
def initScan : ScanSt := ⟨0, none, false, false⟩

/-- Outcome of one scanner step: either continue with an updated state, or
attempt to parse the candidate span that just closed (continuing with the
updated state if the parse fails). -/
inductive StepOut where
  | cont (st : ScanSt)
  | tryParse (s0 : Nat) (st : ScanSt)
deriving Repr, DecidableEq

/-- One character step of the `extractJSON` scanner, a direct transcription
of the if/else chain in src/utils.js:16-57.  Note that an opening bracket
is tracked only at depth 0 and a closing bracket only at depth 1; nested
brackets do not change the depth. -/
def scanStep (c : Char) (i : Nat) (st : ScanSt) : StepOut :=
  if st.inString then
    if st.escape then StepOut.cont { st with escape := false }
    else if c = '\\' then StepOut.cont { st with escape := true }
    else if c = '"' then StepOut.cont { st with inString := false }
    else StepOut.cont st
  else if c = '"' then StepOut.cont { st with inString := true }
  else if c = lbrace then
    StepOut.cont { st with depth := st.depth + 1,
                           start := if st.depth = 0 then some i else st.start }
  else if c = rbrace then
    if st.depth = 0 then StepOut.cont st
    else
      match st.start with
      | some s0 =>
        if st.depth = 1 then StepOut.tryParse s0 { st with depth := 0 }
        else StepOut.cont { st with depth := st.depth - 1 }
      | none => StepOut.cont { st with depth := st.depth - 1 }
  else if c = '[' then
    if st.depth = 0 then StepOut.cont { st with depth := 1, start := some i }
    else StepOut.cont st
  else if c = ']' then
    match st.start with
    | some s0 => if st.depth = 1 then StepOut.tryParse s0 { st with depth := 0 }
                 else StepOut.cont st
    | none => StepOut.cont st
  else StepOut.cont st

/-- The slice `str.slice(a, b)` of a modelled string. -/
def sliceStr (s : Str) (a b : Nat) : Str := (s.drop a).take (b - a)

/-- The scanning loop of `extractJSON`: `orig` is the whole input (used for
slicing), `rest` the unscanned tail at offset `i`. -/
def extractGo (orig : Str) : Str → Nat → ScanSt → Option (Json × Nat)
  | [], _, _ => none
  | c :: rest, i, st =>
    match scanStep c i st with
    | StepOut.cont st1 => extractGo orig rest (i + 1) st1
    | StepOut.tryParse s0 st1 =>
      match jsonParse (sliceStr orig s0 (i + 1)) with
      | some j => some (j, s0)
      | none => extractGo orig rest (i + 1) st1

/-- Model of `extractJSON` (src/utils.js:11-60): scan for the first
top-level brace or bracket span whose slice parses as JSON, returning the
parsed value and its start offset, or `none` when no span parses. -/
def extractJSON (s : Str) : Option (Json × Nat) :=
  extractGo s s 0 initScan

/-- Run the scanner over a segment without extracting: returns the final
state, or `none` if some candidate span parsed successfully (in which case
`extractJSON` would have returned early). -/
def scanStr (orig : Str) : Str → Nat → ScanSt → Option ScanSt
  | [], _, st => some st
  | c :: rest, i, st =>
    match scanStep c i st with
    | StepOut.cont st1 => scanStr orig rest (i + 1) st1
    | StepOut.tryParse s0 st1 =>
      match jsonParse (sliceStr orig s0 (i + 1)) with
      | some _ => none
      | none => scanStr orig rest (i + 1) st1

/-- Transition of the scanner restricted to the interior of a candidate
array span: tracks (depth, inString, escape) and rejects (`none`) any
character that would close the span or re-anchor it, namely a closing
brace at depth 1 or below, a closing bracket at depth 1, or any bracket
or brace event at depth 0. -/
def midStep (c : Char) : Nat × Bool × Bool → Option (Nat × Bool × Bool)
  | (d, inS, esc) =>
    if inS then
      if esc then some (d, inS, false)
      else if c = '\\' then some (d, inS, true)
      else if c = '"' then some (d, false, false)
      else some (d, inS, esc)
    else if c = '"' then some (d, true, esc)
    else if c = lbrace then some (d + 1, inS, esc)
    else if c = rbrace then (if 2 ≤ d then some (d - 1, inS, esc) else none)
    else if c = '[' then (if d = 0 then none else some (d, inS, esc))
    else if c = ']' then (if d = 1 ∨ d = 0 then none else some (d, inS, esc))
    else some (d, inS, esc)

/-- Iterate `midStep` over a segment. -/
def midScan : Str → Nat × Bool × Bool → Option (Nat × Bool × Bool)
  | [], t => some t
  | c :: rest, t =>
    match midStep c t with
    | some t1 => midScan rest t1
    | none => none

example : extractJSON (js "[1,2]") =
    some (Json.arr [Json.num (js "1"), Json.num (js "2")], 0) := by rfl
example : extractJSON (js "[1,[2]]") = none := by rfl
example : extractJSON (js "xx [1,2] yy") =
    some (Json.arr [Json.num (js "1"), Json.num (js "2")], 3) := by rfl
example : extractJSON (js "Sure! [\x7b\"title\":\"A\",\"synopsis\":\"B\"\x7d] ok") =
    some (Json.arr [Json.obj [(js "title", Json.str (js "A")),
                              (js "synopsis", Json.str (js "B"))]], 6) := by rfl
example : extractJSON (js "no json here") = none := by rfl

/-- Outcome of one remote attempt inside `callDeepSeek`: either the
transport throws (network error, non-success status, timeout), or the
request resolves and `data.choices[0]?.message?.content` is the given
optional string (`none` when the path is missing). -/
inductive AttemptOutcome where
  | err
  | ok (content : Option Str)
deriving Repr, DecidableEq

/-- Result of a `callDeepSeek` run: the returned value, the total
backoff wait in milliseconds, and the number of attempts made. -/
structure CallResult where
  result : Option Str
  totalWaitMs : Nat
  attempts : Nat
deriving Repr, DecidableEq

/-- The expression `data.choices[0]?.message?.content || null`
(src/index.js:46): a missing or empty payload collapses to null. -/
def payloadOrNull : Option Str → Option Str
  | none => none
  | some s => if s = [] then none else some s

/-- The retry loop of `callDeepSeek` (src/index.js:26-53): attempt `a`
with `fuel` loop iterations remaining; on an error at attempt 6 return
null immediately, otherwise wait `1000 * 2^(a-1)` ms and retry. -/
def callGo (oracle : Nat → AttemptOutcome) : Nat → Nat → Nat → CallResult
  | 0, a, waited => ⟨none, waited, a - 1⟩
  | fuel + 1, a, waited =>
    match oracle a with
    | AttemptOutcome.ok c => ⟨payloadOrNull c, waited, a⟩
    | AttemptOutcome.err =>
      if a = 6 then ⟨none, waited, a⟩
      else callGo oracle fuel (a + 1) (waited + 1000 * 2 ^ (a - 1))

/-- Model of `callDeepSeek` with `maxRetries = 6`, parameterized by an
oracle giving the outcome of each attempt. -/
def callDeepSeek (oracle : Nat → AttemptOutcome) : CallResult :=
  callGo oracle 6 1 0

/-- JavaScript errors thrown by the modelled code. -/
inductive JsError where
  | typeError
deriving Repr, DecidableEq

/-- Model of `generateChapterOutline` (services, src/unnamed/part_000:396-415)
applied to the raw reply of its inner `callDeepSeek`: when the remote call
returned null, `extractJSON(raw)` evaluates `null.length` and throws a
TypeError; otherwise the extracted JSON (or null when extraction finds
none) is returned. -/
def generateChapterOutline : Option Str → Except JsError (Option Json)
  | none => Except.error JsError.typeError
  | some s => Except.ok ((extractJSON s).map Prod.fst)

/-- JavaScript whitespace for `trim` and `parseInt`. -/
def jsWsChar (c : Char) : Bool :=
  c = ' ' || c = '\t' || c = '\n' || c = '\r' || c = Char.ofNat 12 || c = Char.ofNat 11

/-- Model of `String.prototype.trim`. -/
def jsTrim (s : Str) : Str :=
  ((s.dropWhile jsWsChar).reverse.dropWhile jsWsChar).reverse

/-- Digits of a decimal numeral folded to a natural number. -/
def digitsToNat (ds : Str) : Nat :=
  ds.foldl (fun acc c => acc * 10 + (c.toNat - 48)) 0

/-- Model of `parseInt(s, 10)`: skip leading whitespace, consume an
optional sign and the longest digit prefix; `none` models NaN (no digits).
Every comparison of NaN is false, which callers encode explicitly. -/
def parseIntJS (s : Str) : Option Int :=
  let s1 := s.dropWhile jsWsChar
  let signed : Bool × Str :=
    match s1 with
    | c :: r => if c = '-' then (true, r) else if c = '+' then (false, r) else (false, s1)
    | [] => (false, s1)
  let ds := signed.2.takeWhile Char.isDigit
  if ds = [] then none
  else if signed.1 then some (-(digitsToNat ds : Int))
  else some (digitsToNat ds : Int)

/-- The piece of `str.split(sep)[0]`: the content before the first
occurrence of the (non-empty) separator, or the whole string. -/
def jsSplitFirst (sep : Str) : Str → Str
  | [] => []
  | c :: r => if sep.isPrefixOf (c :: r) then [] else c :: jsSplitFirst sep r

/-- Model of the slugify dependency with `lower: true, strict: true`:
keep only alphanumerics and spaces, trim, replace each space run with one
dash, and lower-case. -/
def slugCollapse : Str → Bool → Str
  | [], _ => []
  | c :: r, prevSpace =>
    if c = ' ' then
      if prevSpace then slugCollapse r true else '-' :: slugCollapse r true
    else c.toLower :: slugCollapse r false

/-- Slugify a title (see `slugCollapse`). -/
def slugifyLS (s : Str) : Str :=
  slugCollapse (jsTrim (s.filter (fun c => c.isAlphanum || c = ' '))) false

/-- Decimal numeral of a natural number, as a modelled string. -/
def natToStr (n : Nat) : Str := (Nat.repr n).data

/-- Map with the element index, as `Array.prototype.map((x, i) => ...)`,
starting the index at `i0`. -/
def jsMapIGo (f : Nat → α → β) : Nat → List α → List β
  | _, [] => []
  | i, x :: xs => f i x :: jsMapIGo f (i + 1) xs

/-- Map with the element index from 0. -/
def jsMapI (f : Nat → α → β) (l : List α) : List β := jsMapIGo f 0 l

/-- Model of `Array.prototype.join(sep)`. -/
def joinSep (sep : Str) : List Str → Str
  | [] => []
  | [x] => x
  | x :: y :: xs => x ++ sep ++ joinSep sep (y :: xs)

/-- Whether `needle` occurs contiguously inside `hay`. -/
def hasSegment (needle : Str) : Str → Bool
  | [] => needle.isEmpty
  | c :: t => needle.isPrefixOf (c :: t) || hasSegment needle t

example : parseIntJS (js "abc") = none := by rfl
example : parseIntJS (js " 12abc") = some 12 := by rfl
example : parseIntJS (js "-7") = some (-7) := by rfl
example : slugifyLS (js "The Fungal Kingdom – Guide") = js "the-fungal-kingdom-guide" := by rfl
example : jsSplitFirst (js " – ") (js "A – B") = js "A" := by rfl
example : jsSplitFirst (js " – ") (js " – B") = [] := by rfl

/-- Oracle for the remote generation endpoint, one entry per pipeline
stage: the value each stage's inner `callDeepSeek` resolves to (`none` is
the failure sentinel after retry exhaustion).  Chapter calls are indexed
by their 1-based chapter number. -/
structure RemoteOracle where
  overviewRaw : Option Str
  outlineRaw : Option Str
  chapterRaw : Nat → Option Str

/-- HTTP responses sent by the /generate-book handler. -/
inductive Resp where
  | badRequest (msg : Str)
  | serviceUnavailable (msg : Str)
  | okSlug (slug : Str)
deriving Repr, DecidableEq

/-- One remote call issued during a run, for the call log. -/
inductive StageCall where
  | overview
  | outline
  | chapter (idx : Nat)
deriving Repr, DecidableEq

/-- Observable outcome of one /generate-book request: the response (or an
uncaught JavaScript error), the key-value writes performed, and the remote
calls issued, in order. -/
structure RunResult where
  response : Except JsError Resp
  writes : List (Str × Str)
  callLog : List StageCall
deriving Repr

/-- One chapter section of the assembled book
(src/routes.js:68-70): separator rule, chapter heading, synopsis epigraph
and chapter text. -/
def sectionStr (i : Nat) (m : Json) (text : Str) : Str :=
  js "\n---\n\n# Chapter " ++ natToStr (i + 1) ++ js ": " ++
    jsDisplay (getField m (js "title")) ++ js "\n\n*" ++
    jsDisplay (getField m (js "synopsis")) ++ js "*\n\n" ++ text

/-- Stages 4-5 of the /generate-book handler (src/routes.js:66-82):
assemble the book and persist the three records.  Reading
`outline[0].title` throws on an empty outline or a missing/non-string
title (`.split` is then applied to `undefined`). -/
def assembleAndStore (k ov : Str) (metas : List Json) (texts : List Str)
    (callLog : List StageCall) : RunResult :=
  match metas with
  | [] => ⟨Except.error JsError.typeError, [], callLog⟩
  | m0 :: _ =>
    match getField m0 (js "title") with
    | some (Json.str t0) =>
      let th := jsSplitFirst (js " – ") t0
      let header := js "# " ++ (if th = [] then js "Untitled Book" else th) ++
        js "\n\n## Overview\n\n" ++ ov ++ js "\n\n"
      let sections := jsMapI (fun i m => sectionStr i m (texts.getD i [])) metas
      let full := joinSep (js "\n") (header :: sections)
      let slug := slugifyLS (if th = [] then jsTrim (jsSplitFirst (js ",") k) else th)
      ⟨Except.ok (Resp.okSlug slug),
       [(js "book-overview:" ++ slug, ov),
        (js "book-outline:" ++ slug, jsonStringify (Json.arr metas)),
        (js "book-full:" ++ slug, full)],
       callLog⟩
    | _ => ⟨Except.error JsError.typeError, [], callLog⟩

/-- Stage 3 of the /generate-book handler (src/routes.js:57-64): fan out
one chapter call per outline entry (1-based index), fail with 503 when any
chapter result is falsy.  `outline.map` throws when the extracted JSON is
not an array. -/
def runChapters (o : RemoteOracle) (k ov : Str) (j : Json) : RunResult :=
  match j with
  | Json.arr metas =>
    let chaptersRaw := jsMapI (fun i _ => o.chapterRaw (i + 1)) metas
    let callLog := [StageCall.overview, StageCall.outline] ++
      jsMapI (fun i _ => StageCall.chapter (i + 1)) metas
    if chaptersRaw.any optStrFalsy then
      ⟨Except.ok (Resp.serviceUnavailable (js "One or more chapters failed")), [], callLog⟩
    else
      assembleAndStore k ov metas (chaptersRaw.map (fun c => c.getD [])) callLog
  | _ => ⟨Except.error JsError.typeError, [], [StageCall.overview, StageCall.outline]⟩

/-- Stages 1-2 of the /generate-book handler (src/routes.js:45-55):
overview then outline, each aborting with 503 on a falsy result.  A null
outline reply makes `generateChapterOutline` throw (see its model). -/
def runStages (o : RemoteOracle) (k : Str) : RunResult :=
  match o.overviewRaw with
  | none => ⟨Except.ok (Resp.serviceUnavailable (js "Overview generation failed")), [],
             [StageCall.overview]⟩
  | some ov =>
    if ov = [] then
      ⟨Except.ok (Resp.serviceUnavailable (js "Overview generation failed")), [],
       [StageCall.overview]⟩
    else
      match generateChapterOutline o.outlineRaw with
      | Except.error e => ⟨Except.error e, [], [StageCall.overview, StageCall.outline]⟩
      | Except.ok none =>
        ⟨Except.ok (Resp.serviceUnavailable (js "Outline generation failed")), [],
         [StageCall.overview, StageCall.outline]⟩
      | Except.ok (some j) => runChapters o k ov j

/-- The /generate-book handler (src/routes.js:35-83): request-field and
chapter-count validation, then the five pipeline stages.  NaN from
`parseInt` compares false against both bounds, so a non-numeric chapters
string passes validation. -/
def generateBookRoute (o : RemoteOracle) (keywords chapters : Option Str) : RunResult :=
  match keywords, chapters with
  | some k, some c =>
    if k = [] ∨ c = [] then
      ⟨Except.ok (Resp.badRequest (js "keywords and chapters required")), [], []⟩
    else if (match parseIntJS c with
             | some n => decide (n < 3) || decide (15 < n)
             | none => false) then
      ⟨Except.ok (Resp.badRequest (js "chapters must be 3-15")), [], []⟩
    else runStages o k
  | _, _ => ⟨Except.ok (Resp.badRequest (js "keywords and chapters required")), [], []⟩

/-- Responses of the /download/:filename route. -/
inductive DlResp where
  | notFound
  | file (contentType fname content : Str)
deriving Repr, DecidableEq

/-- The slug computation `fn.replace(/\.(md|json)$/, '')`
(src/routes.js:88): strip one trailing `.md` or `.json` extension only. -/
def stripExt (fn : Str) : Str :=
  if (js ".md").isSuffixOf fn then fn.take (fn.length - 3)
  else if (js ".json").isSuffixOf fn then fn.take (fn.length - 5)
  else fn

/-- The /download/:filename route (src/routes.js:86-111) over an abstract
key-value store: pick the record family from the filename suffix, look up
`<family>:<slug>` and serve it, or 404 when absent or empty. -/
def downloadRoute (store : Str → Option Str) (fn : Str) : DlResp :=
  let slug := stripExt fn
  if (js "-outline.json").isSuffixOf fn then
    match store (js "book-outline:" ++ slug) with
    | some content =>
      if content = [] then DlResp.notFound
      else DlResp.file (js "application/json") (slug ++ js "-outline.json") content
    | none => DlResp.notFound
  else if (js "-overview.md").isSuffixOf fn then
    match store (js "book-overview:" ++ slug) with
    | some content =>
      if content = [] then DlResp.notFound
      else DlResp.file (js "text/markdown") (slug ++ js "-overview.md") content
    | none => DlResp.notFound
  else
    match store (js "book-full:" ++ slug) with
    | some content =>
      if content = [] then DlResp.notFound
      else DlResp.file (js "text/markdown") (slug ++ js ".md") content
    | none => DlResp.notFound

/-- The /assemble-book handler (routes variant embedded in src/utils.js,
lines 154-177): presence check on overview/outline/chaptersRaw, then
assembly and persist.  `outline[0].title` throws on an empty or non-array
outline or a missing title; when the title head is empty,
`keywords.split` throws unless keywords is a string. -/
def assembleBookRoute (overview outline chaptersRaw keywords : Option Json) :
    Except JsError (Resp × List (Str × Str)) :=
  if jsOptFalsy overview || jsOptFalsy outline || jsOptFalsy chaptersRaw then
    Except.ok (Resp.badRequest (js "missing required fields"), [])
  else
    match outline with
    | some (Json.arr (m0 :: rest)) =>
      match getField m0 (js "title") with
      | some (Json.str t0) =>
        let metas := m0 :: rest
        let th := jsSplitFirst (js " – ") t0
        let ovStr := jsDisplay overview
        let header := js "# " ++ (if th = [] then js "Untitled Book" else th) ++
          js "\n\n## Overview\n\n" ++ ovStr ++ js "\n\n"
        let sections := jsMapI
          (fun i m => sectionStr i m
            (jsDisplay (match chaptersRaw with | some cr => jsIndex cr i | none => none)))
          metas
        let full := joinSep (js "\n") (header :: sections)
        if th = [] then
          match keywords with
          | some (Json.str kw) =>
            let slug := slugifyLS (jsTrim (jsSplitFirst (js ",") kw))
            Except.ok (Resp.okSlug slug,
              [(js "book-overview:" ++ slug, ovStr),
               (js "book-outline:" ++ slug, jsonStringify (Json.arr metas)),
               (js "book-full:" ++ slug, full)])
          | _ => Except.error JsError.typeError
        else
          let slug := slugifyLS th
          Except.ok (Resp.okSlug slug,
            [(js "book-overview:" ++ slug, ovStr),
             (js "book-outline:" ++ slug, jsonStringify (Json.arr metas)),
             (js "book-full:" ++ slug, full)])
      | _ => Except.error JsError.typeError
    | _ => Except.error JsError.typeError

/-- An endpoint that fails twice, then succeeds with payload "ok". -/
def oracleK2 : Nat → AttemptOutcome :=
  fun a => if a ≤ 2 then AttemptOutcome.err else AttemptOutcome.ok (some (js "ok"))

/-- An endpoint that fails on every attempt. -/
def oracleAllErr : Nat → AttemptOutcome := fun _ => AttemptOutcome.err

/-- An endpoint whose request succeeds immediately but carries an empty
content string. -/
def oracleEmptyOk : Nat → AttemptOutcome := fun _ => AttemptOutcome.ok (some [])

/-- A remote oracle whose outline stage returns a single-entry outline
even when three chapters were requested. -/
def shortOutlineOracle : RemoteOracle :=
  ⟨some (js "OV"),
   some (js "[\x7b\"title\":\"Mushrooms\",\"synopsis\":\"Syn\"\x7d]"),
   fun _ => some (js "TXT")⟩

/-- A remote oracle whose overview stage fails (all retries exhausted). -/
def overviewFailOracle : RemoteOracle := ⟨none, none, fun _ => none⟩

/-- A remote oracle with a two-entry outline whose second chapter call
fails all its attempts. -/
def chapterFailOracle : RemoteOracle :=
  ⟨some (js "OV"), some (js "[\"a\",\"b\"]"),
   fun i => if i = 2 then none else some (js "TXT")⟩

/-- A store holding the three records persisted for slug "mybook". -/
def persistedStoreC6 : Str → Option Str := fun key =>
  if key = js "book-overview:mybook" then some (js "OV")
  else if key = js "book-outline:mybook" then some (js "OL")
  else if key = js "book-full:mybook" then some (js "FB")
  else none

/-- The slug derivation shared by assembly and persist
(src/routes.js:74-77): head of the first outline title before an en-dash
separator, falling back to the trimmed first keyword. -/
def bookSlug (k t0 : Str) : Str :=
  let th := jsSplitFirst (js " – ") t0
  slugifyLS (if th = [] then jsTrim (jsSplitFirst (js ",") k) else th)

/-- Closed form of the assembled book on the success path: a title
heading, an overview section, then one section per chapter in outline
order, each with its 1-based chapter heading, synopsis epigraph and
chapter text. -/
def bookFull (ov t0 : Str) (m : Nat) (titles syns texts : Nat → Str) : Str :=
  let th := jsSplitFirst (js " – ") t0
  js "# " ++ (if th = [] then js "Untitled Book" else th) ++
    js "\n\n## Overview\n\n" ++ ov ++ js "\n\n" ++
    ((List.range m).map (fun i =>
      js "\n\n---\n\n# Chapter " ++ natToStr (i + 1) ++ js ": " ++ titles i ++
        js "\n\n*" ++ syns i ++ js "*\n\n" ++ texts i)).flatten
example : jsonParse (js "[1,[2]]") =
    some (Json.arr [Json.num (js "1"), Json.arr [Json.num (js "2")]]) := by rfl
example : jsonParse (js "[\x7b\"title\":\"A\",\"synopsis\":\"B\"\x7d]") =
    some (Json.arr [Json.obj [(js "title", Json.str (js "A")),
                              (js "synopsis", Json.str (js "B"))]]) := by rfl
example : jsonParse (js "[1,[2]") = none := by rfl
example : jsonParse (js "[1,2] x") = none := by rfl
example : jsonParse (js " \x7b \"a\" : [true, false, null, -1.5e2] \x7d ") =
    some (Json.obj [(js "a", Json.arr [Json.bool true, Json.bool false, Json.null,
                                       Json.num (js "-1.5e2")])]) := by rfl

/-! ### Support lemmas about the extractJSON scanner -/

/-- Slicing inside the left part of an append ignores the right part. -/
lemma sliceStr_append (p r : Str) (a b : Nat) (h : b ≤ p.length) :
    sliceStr (p ++ r) a b = sliceStr p a b := by
  unfold sliceStr
  by_cases hab : b ≤ a
  · have hz : b - a = 0 := by omega
    simp [hz]
  · have ha : a ≤ p.length := by omega
    rw [List.drop_append_eq_append_drop]
    have hz : a - p.length = 0 := by omega
    rw [hz, List.drop_zero, List.take_append_eq_append_take]
    have hlen : b - a - (p.drop a).length = 0 := by
      rw [List.length_drop]; omega
    rw [hlen, List.take_zero, List.append_nil]

/-- Slicing a span that starts exactly at the end of a prefix takes from
the tail. -/
lemma sliceStr_exact (p t : Str) (n : Nat) :
    sliceStr (p ++ t) p.length (p.length + n) = t.take n := by
  unfold sliceStr
  rw [List.drop_append_eq_append_drop, List.drop_length, Nat.sub_self, List.drop_zero,
    List.nil_append, Nat.add_sub_cancel_left]

/-- Scanning a segment that lies entirely inside the left part of an
append does not depend on the right part. -/
lemma scanStr_congr (p r : Str) :
    ∀ (rest : Str) (i : Nat) (st : ScanSt), i + rest.length ≤ p.length →
      scanStr (p ++ r) rest i st = scanStr p rest i st := by
  intro rest
  induction rest with
  | nil => intro i st _; rfl
  | cons c m ih =>
    intro i st hb
    have hb1 : i + 1 + m.length ≤ p.length := by
      simp only [List.length_cons] at hb; omega
    have hi1 : i + 1 ≤ p.length := by
      simp only [List.length_cons] at hb; omega
    cases hstep : scanStep c i st with
    | cont st1 =>
      simp only [scanStr, hstep]
      exact ih (i + 1) st1 hb1
    | tryParse s0 st1 =>
      simp only [scanStr, hstep]
      rw [sliceStr_append p r s0 (i + 1) hi1]
      cases jsonParse (sliceStr p s0 (i + 1)) with
      | none => exact ih (i + 1) st1 hb1
      | some j => rfl

/-- A segment scanned without early return can be skipped by the
extraction loop: extraction continues after it from the resulting state. -/
lemma extractGo_scan (orig : Str) :
    ∀ (p q : Str) (i : Nat) (st st1 : ScanSt), scanStr orig p i st = some st1 →
      extractGo orig (p ++ q) i st = extractGo orig q (i + p.length) st1 := by
  intro p
  induction p with
  | nil =>
    intro q i st st1 h
    have hst : st = st1 := by simpa [scanStr] using h
    simp [hst]
  | cons c m ih =>
    intro q i st st1 h
    have harith : i + 1 + m.length = i + (c :: m).length := by
      simp only [List.length_cons]; omega
    cases hstep : scanStep c i st with
    | cont st2 =>
      simp only [scanStr, hstep] at h
      show extractGo orig (c :: (m ++ q)) i st = _
      simp only [extractGo, hstep]
      rw [ih q (i + 1) st2 st1 h, harith]
    | tryParse s0 st2 =>
      simp only [scanStr, hstep] at h
      show extractGo orig (c :: (m ++ q)) i st = _
      simp only [extractGo, hstep]
      cases hp : jsonParse (sliceStr orig s0 (i + 1)) with
      | some j => rw [hp] at h; exact absurd h (by simp)
      | none =>
        rw [hp] at h
        simp only []
        rw [ih q (i + 1) st2 st1 h, harith]

/-- Inside a candidate span (depth at least 1), a step accepted by
`midStep` is an ordinary `cont` step of the scanner: the depth and flags
evolve as `midStep` says, the recorded start offset is untouched, and the
depth stays at least 1. -/
lemma scanStep_mid (c : Char) (i : Nat) (st : ScanSt) (t1 : Nat × Bool × Bool)
    (h : midStep c (st.depth, st.inString, st.escape) = some t1) (hd : 1 ≤ st.depth) :
    scanStep c i st = StepOut.cont ⟨t1.1, st.start, t1.2.1, t1.2.2⟩ ∧ 1 ≤ t1.1 := by
  obtain ⟨d, s0, inS, esc⟩ := st
  obtain ⟨d1, inS1, esc1⟩ := t1
  simp only at hd
  simp only [midStep] at h
  simp only [scanStep]
  by_cases hIn : inS = true
  · rw [if_pos hIn] at h ⊢
    by_cases hEsc : esc = true
    · rw [if_pos hEsc] at h ⊢
      simp only [Option.some.injEq, Prod.mk.injEq] at h
      obtain ⟨rfl, rfl, rfl⟩ := h
      exact ⟨rfl, hd⟩
    · rw [if_neg hEsc] at h ⊢
      rw [Bool.not_eq_true] at hEsc
      subst hEsc
      by_cases hbs : c = '\\'
      · rw [if_pos hbs] at h ⊢
        simp only [Option.some.injEq, Prod.mk.injEq] at h
        obtain ⟨rfl, rfl, rfl⟩ := h
        exact ⟨rfl, hd⟩
      · rw [if_neg hbs] at h ⊢
        by_cases hqt : c = '"'
        · rw [if_pos hqt] at h ⊢
          simp only [Option.some.injEq, Prod.mk.injEq] at h
          obtain ⟨rfl, rfl, rfl⟩ := h
          exact ⟨rfl, hd⟩
        · rw [if_neg hqt] at h ⊢
          simp only [Option.some.injEq, Prod.mk.injEq] at h
          obtain ⟨rfl, rfl, rfl⟩ := h
          exact ⟨rfl, hd⟩
  · rw [if_neg hIn] at h ⊢
    rw [Bool.not_eq_true] at hIn
    subst hIn
    by_cases hqt : c = '"'
    · rw [if_pos hqt] at h ⊢
      simp only [Option.some.injEq, Prod.mk.injEq] at h
      obtain ⟨rfl, rfl, rfl⟩ := h
      exact ⟨rfl, hd⟩
    · rw [if_neg hqt] at h ⊢
      by_cases hlb : c = lbrace
      · rw [if_pos hlb] at h ⊢
        simp only [Option.some.injEq, Prod.mk.injEq] at h
        obtain ⟨rfl, rfl, rfl⟩ := h
        refine ⟨?_, by omega⟩
        rw [if_neg (show ¬ d = 0 by omega)]
      · rw [if_neg hlb] at h ⊢
        by_cases hrb : c = rbrace
        · rw [if_pos hrb] at h ⊢
          by_cases h2 : 2 ≤ d
          · rw [if_pos h2] at h
            simp only [Option.some.injEq, Prod.mk.injEq] at h
            obtain ⟨rfl, rfl, rfl⟩ := h
            rw [if_neg (show ¬ d = 0 by omega)]
            refine ⟨?_, by omega⟩
            cases s0 with
            | none => rfl
            | some v =>
              show (if d = 1 then _ else _) = _
              rw [if_neg (show ¬ d = 1 by omega)]
          · rw [if_neg h2] at h
            cases h
        · rw [if_neg hrb] at h ⊢
          by_cases hob : c = '['
          · rw [if_pos hob] at h ⊢
            rw [if_neg (show ¬ d = 0 by omega)] at h ⊢
            simp only [Option.some.injEq, Prod.mk.injEq] at h
            obtain ⟨rfl, rfl, rfl⟩ := h
            exact ⟨rfl, hd⟩
          · rw [if_neg hob] at h ⊢
            by_cases hcb : c = ']'
            · rw [if_pos hcb] at h ⊢
              by_cases hor : d = 1 ∨ d = 0
              · rw [if_pos hor] at h
                cases h
              · rw [if_neg hor] at h
                simp only [Option.some.injEq, Prod.mk.injEq] at h
                obtain ⟨rfl, rfl, rfl⟩ := h
                refine ⟨?_, hd⟩
                cases s0 with
                | none => rfl
                | some v =>
                  show (if d = 1 then _ else _) = _
                  rw [if_neg (show ¬ d = 1 from fun hh => hor (Or.inl hh))]
            · rw [if_neg hcb] at h ⊢
              simp only [Option.some.injEq, Prod.mk.injEq] at h
              obtain ⟨rfl, rfl, rfl⟩ := h
              exact ⟨rfl, hd⟩

/-- The extraction loop passes through a whole segment accepted by
`midScan` without attempting any parse, updating depth and flags and
keeping the recorded start offset. -/
lemma extractGo_midScan (orig : Str) :
    ∀ (mid q : Str) (i : Nat) (st : ScanSt) (t1 : Nat × Bool × Bool),
      midScan mid (st.depth, st.inString, st.escape) = some t1 → 1 ≤ st.depth →
      extractGo orig (mid ++ q) i st =
        extractGo orig q (i + mid.length) ⟨t1.1, st.start, t1.2.1, t1.2.2⟩ := by
  intro mid
  induction mid with
  | nil =>
    intro q i st t1 h hd
    have ht : t1 = (st.depth, st.inString, st.escape) := by
      simpa [midScan] using h.symm
    simp [ht]
  | cons c m ih =>
    intro q i st t1 h hd
    have harith : i + 1 + m.length = i + (c :: m).length := by
      simp only [List.length_cons]; omega
    unfold midScan at h
    cases hstep1 : midStep c (st.depth, st.inString, st.escape) with
    | none => rw [hstep1] at h; exact absurd h (by simp)
    | some t2 =>
      rw [hstep1] at h
      obtain ⟨hsc, hd2⟩ := scanStep_mid c i st t2 hstep1 hd
      show extractGo orig (c :: (m ++ q)) i st = _
      simp only [extractGo, hsc]
      have := ih q (i + 1) ⟨t2.1, st.start, t2.2.1, t2.2.2⟩ t1 (by simpa using h) (by simpa using hd2)
      rw [this, harith]

/-- C1 support: the first scanner step on the opening bracket of the
embedded array, from a neutral state. -/
lemma scanStep_open_bracket (i : Nat) (st1 : ScanSt)
    (hd : st1.depth = 0) (hin : st1.inString = false) (hesc : st1.escape = false) :
    scanStep '[' i st1 = StepOut.cont ⟨1, some i, false, false⟩ := by
  obtain ⟨d, s0, inS, esc⟩ := st1
  simp only at hd hin hesc
  subst hd; subst hin; subst hesc
  simp [scanStep, lbrace, rbrace]

/-- C1 support: the scanner step on the closing bracket of the embedded
array at depth 1 with a recorded start. -/
lemma scanStep_close_bracket (i s0 : Nat) :
    scanStep ']' i ⟨1, some s0, false, false⟩ = StepOut.tryParse s0 ⟨0, some s0, false, false⟩ := by
  simp [scanStep, lbrace, rbrace]

/-- C1 (amended): for a text `pre ++ arr ++ suf` in which scanning the
prefix leaves the extractor in a neutral state (depth 0, outside any
string) without any candidate span having parsed, and `arr` is a bracketed
span whose interior never closes the span early (no top-level closing
bracket and no brace closing to depth 0 outside strings — in particular no
array nested directly at the top level of `arr`) and which parses as JSON,
extraction returns exactly the parse of `arr`, anchored at the end of the
prefix, regardless of the suffix. -/
theorem extractJSON_embedded_array (pre mid suf : Str) (v : Json) (st1 : ScanSt)
    (hpre : scanStr pre pre 0 initScan = some st1)
    (hd : st1.depth = 0) (hin : st1.inString = false) (hesc : st1.escape = false)
    (hmid : midScan mid (1, false, false) = some (1, false, false))
    (hv : jsonParse ('[' :: mid ++ [']']) = some v) :
    extractJSON (pre ++ ('[' :: mid ++ [']']) ++ suf) = some (v, pre.length) := by
  have hfull : pre ++ ('[' :: mid ++ [']']) ++ suf = pre ++ ('[' :: (mid ++ (']' :: suf))) := by
    simp
  rw [extractJSON, hfull]
  have hscan : scanStr (pre ++ ('[' :: (mid ++ (']' :: suf)))) pre 0 initScan = some st1 := by
    rw [scanStr_congr pre ('[' :: (mid ++ (']' :: suf))) pre 0 initScan (by simp)]
    exact hpre
  rw [extractGo_scan (pre ++ ('[' :: (mid ++ (']' :: suf)))) pre ('[' :: (mid ++ (']' :: suf)))
    0 initScan st1 hscan]
  simp only [extractGo, scanStep_open_bracket (0 + pre.length) st1 hd hin hesc]
  rw [extractGo_midScan (pre ++ ('[' :: (mid ++ (']' :: suf)))) mid (']' :: suf)
    (0 + pre.length + 1) ⟨1, some (0 + pre.length), false, false⟩ (1, false, false) hmid
    (by norm_num)]
  simp only [extractGo, scanStep_close_bracket]
  have hslice : sliceStr (pre ++ ('[' :: (mid ++ (']' :: suf)))) (0 + pre.length)
      (0 + pre.length + 1 + mid.length + 1) = '[' :: mid ++ [']'] := by
    have h1 : (0 : Nat) + pre.length = pre.length := by omega
    rw [h1]
    have h2 : pre.length + 1 + mid.length + 1 = pre.length + (mid.length + 2) := by omega
    rw [h2, sliceStr_exact pre ('[' :: (mid ++ (']' :: suf))) (mid.length + 2)]
    have hlen : ('[' :: mid ++ [']']).length = mid.length + 2 := by simp
    have hsplit : '[' :: (mid ++ (']' :: suf)) = ('[' :: mid ++ [']']) ++ suf := by simp
    rw [hsplit, ← hlen, List.take_left (('[' :: mid ++ [']'])) suf]
  rw [hslice, hv]
  simp

/-- C1 witness: a concrete prose-wrapped array is extracted and parses to
the same value as parsing the array directly. -/
theorem extractJSON_embedded_array_witness :
    extractJSON (js "Sure! Here is the outline: " ++ ('[' :: js "1,2" ++ [']']) ++
        js " Hope that helps!") =
      some (Json.arr [Json.num (js "1"), Json.num (js "2")],
            (js "Sure! Here is the outline: ").length) :=
  extractJSON_embedded_array (js "Sure! Here is the outline: ") (js "1,2")
    (js " Hope that helps!") (Json.arr [Json.num (js "1"), Json.num (js "2")])
    ⟨0, none, false, false⟩ rfl rfl rfl rfl rfl rfl

/-- C1 counterexample: "[1,[2]]" is a valid JSON array and the surrounding
prefix and suffix are empty (hence contain no unbalanced braces or
brackets), yet extraction returns none rather than a value equal to the
direct parse, because the scanner does not track nested brackets. -/
theorem extractJSON_nested_array_cex :
    jsonParse (js "[1,[2]]") =
      some (Json.arr [Json.num (js "1"), Json.arr [Json.num (js "2")]]) ∧
    extractJSON (([] : Str) ++ js "[1,[2]]" ++ ([] : Str)) = none :=
  ⟨rfl, rfl⟩

/-- C2: when the endpoint fails on the first k attempts (k < 6) and the
attempt k+1 resolves with a non-empty payload, callDeepSeek returns that
payload after k+1 attempts and the total wait is the sum of the backoff
delays 1000*2^(a-1) for a = 1..k; when every attempt fails, it returns
null after exactly 6 attempts with no wait after the final attempt. -/
theorem callDeepSeek_retry_backoff (oracle : Nat → AttemptOutcome) (k : Nat) (s : Str) :
    (k < 6 → (∀ a, 1 ≤ a → a ≤ k → oracle a = AttemptOutcome.err) →
      oracle (k + 1) = AttemptOutcome.ok (some s) → s ≠ [] →
      callDeepSeek oracle =
        ⟨some s, (Finset.Icc 1 k).sum (fun a => 1000 * 2 ^ (a - 1)), k + 1⟩) ∧
    ((∀ a, 1 ≤ a → a ≤ 6 → oracle a = AttemptOutcome.err) →
      callDeepSeek oracle =
        ⟨none, (Finset.Icc 1 5).sum (fun a => 1000 * 2 ^ (a - 1)), 6⟩) := by
  constructor
  · intro hk hfail hsucc hs
    interval_cases k
    · simp [callDeepSeek, callGo, hsucc, payloadOrNull, hs]
    · have h1 := hfail 1 (by norm_num) (by norm_num)
      simp [callDeepSeek, callGo, h1, hsucc, payloadOrNull, hs]
      try decide
    · have h1 := hfail 1 (by norm_num) (by norm_num)
      have h2 := hfail 2 (by norm_num) (by norm_num)
      simp [callDeepSeek, callGo, h1, h2, hsucc, payloadOrNull, hs]
      try decide
    · have h1 := hfail 1 (by norm_num) (by norm_num)
      have h2 := hfail 2 (by norm_num) (by norm_num)
      have h3 := hfail 3 (by norm_num) (by norm_num)
      simp [callDeepSeek, callGo, h1, h2, h3, hsucc, payloadOrNull, hs]
      try decide
    · have h1 := hfail 1 (by norm_num) (by norm_num)
      have h2 := hfail 2 (by norm_num) (by norm_num)
      have h3 := hfail 3 (by norm_num) (by norm_num)
      have h4 := hfail 4 (by norm_num) (by norm_num)
      simp [callDeepSeek, callGo, h1, h2, h3, h4, hsucc, payloadOrNull, hs]
      try decide
    · have h1 := hfail 1 (by norm_num) (by norm_num)
      have h2 := hfail 2 (by norm_num) (by norm_num)
      have h3 := hfail 3 (by norm_num) (by norm_num)
      have h4 := hfail 4 (by norm_num) (by norm_num)
      have h5 := hfail 5 (by norm_num) (by norm_num)
      simp [callDeepSeek, callGo, h1, h2, h3, h4, h5, hsucc, payloadOrNull, hs]
      try decide
  · intro hfail
    have h1 := hfail 1 (by norm_num) (by norm_num)
    have h2 := hfail 2 (by norm_num) (by norm_num)
    have h3 := hfail 3 (by norm_num) (by norm_num)
    have h4 := hfail 4 (by norm_num) (by norm_num)
    have h5 := hfail 5 (by norm_num) (by norm_num)
    have h6 := hfail 6 (by norm_num) (by norm_num)
    simp [callDeepSeek, callGo, h1, h2, h3, h4, h5, h6]
    try decide

/-- C2 witness: with two failures then a success the payload is returned
after 3 attempts having waited 1000 + 2000 ms; with constant failure the
sentinel is returned after 6 attempts having waited 31000 ms. -/
theorem callDeepSeek_retry_backoff_witness :
    callDeepSeek oracleK2 =
      ⟨some (js "ok"), (Finset.Icc 1 2).sum (fun a => 1000 * 2 ^ (a - 1)), 3⟩ ∧
    callDeepSeek oracleAllErr =
      ⟨none, (Finset.Icc 1 5).sum (fun a => 1000 * 2 ^ (a - 1)), 6⟩ :=
  ⟨(callDeepSeek_retry_backoff oracleK2 2 (js "ok")).1 (by norm_num)
      (fun a h1 h2 => by simp [oracleK2, h2]) rfl (by decide),
   (callDeepSeek_retry_backoff oracleAllErr 0 []).2 (fun a _ _ => rfl)⟩

/-- C3: a remote failure inside the outline stage is not recovered — with
the failure sentinel as the raw reply, generateChapterOutline evaluates
`null.length` inside extractJSON and throws a TypeError instead of
returning null; when the remote reply is a string in which extraction
finds no JSON, the stage does return null without throwing. -/
theorem generateChapterOutline_null_throws :
    generateChapterOutline none = Except.error JsError.typeError ∧
    extractJSON (js "no json here") = none ∧
    generateChapterOutline (some (js "no json here")) = Except.ok none :=
  ⟨rfl, rfl, rfl⟩

/-- C8 support: whenever the retry loop returns the null sentinel, either
the attempt budget is exhausted (the result is reported at attempt 6) or
the loop stopped early on a resolved response whose payload collapsed to
null. -/
lemma callGo_none_attempts (oracle : Nat → AttemptOutcome) :
    ∀ (fuel a waited : Nat), a + fuel = 7 →
      (callGo oracle fuel a waited).result = none →
      (callGo oracle fuel a waited).attempts = 6 ∨
      ∃ c, oracle (callGo oracle fuel a waited).attempts = AttemptOutcome.ok c ∧
        payloadOrNull c = none := by
  intro fuel
  induction fuel with
  | zero =>
    intro a waited h _
    left
    simp [callGo]
    omega
  | succ n ih =>
    intro a waited h hres
    cases ho : oracle a with
    | ok c =>
      right
      have heq : callGo oracle (n + 1) a waited = ⟨payloadOrNull c, waited, a⟩ := by
        simp [callGo, ho]
      rw [heq] at hres ⊢
      exact ⟨c, by simpa using ho, hres⟩
    | err =>
      by_cases ha : a = 6
      · left
        subst ha
        simp [callGo, ho]
      · have heq : callGo oracle (n + 1) a waited =
            callGo oracle n (a + 1) (waited + 1000 * 2 ^ (a - 1)) := by
          simp [callGo, ho, ha]
        rw [heq] at hres ⊢
        exact ih (a + 1) _ (by omega) hres

/-- C8 (amended): callDeepSeek returns the null sentinel only after
exhausting all 6 attempts, or immediately on an attempt whose request
resolves but whose textual payload is empty or missing. -/
theorem callDeepSeek_null_characterization (oracle : Nat → AttemptOutcome)
    (h : (callDeepSeek oracle).result = none) :
    (callDeepSeek oracle).attempts = 6 ∨
    ∃ c, oracle (callDeepSeek oracle).attempts = AttemptOutcome.ok c ∧
      payloadOrNull c = none :=
  callGo_none_attempts oracle 6 1 0 (by norm_num) h

/-- C8 witness: with constant transport failure the characterization
applies with the exhaustion disjunct. -/
theorem callDeepSeek_null_characterization_witness :
    (callDeepSeek oracleAllErr).attempts = 6 ∨
    ∃ c, oracleAllErr (callDeepSeek oracleAllErr).attempts = AttemptOutcome.ok c ∧
      payloadOrNull c = none :=
  callDeepSeek_null_characterization oracleAllErr rfl

/-- C8 counterexample: an attempt that succeeds with an empty content
string makes callDeepSeek return null after a single attempt, while five
attempts of retry budget remain — the sentinel is not reserved for
exhaustion. -/
theorem callDeepSeek_empty_payload_cex :
    callDeepSeek oracleEmptyOk = ⟨none, 0, 1⟩ ∧ (1 : Nat) ≠ 6 :=
  ⟨rfl, by decide⟩

/-! ### Support lemmas about the orchestrator -/

/-- Length of an indexed map. -/
lemma jsMapIGo_length (f : Nat → α → β) :
    ∀ (l : List α) (i : Nat), (jsMapIGo f i l).length = l.length := by
  intro l
  induction l with
  | nil => intro i; rfl
  | cons x xs ih => intro i; simp [jsMapIGo, ih]

/-- Entries of an indexed map. -/
lemma jsMapIGo_get (f : Nat → α → β) :
    ∀ (l : List α) (i j : Nat) (h : j < l.length) (h2 : j < (jsMapIGo f i l).length),
      (jsMapIGo f i l).get ⟨j, h2⟩ = f (i + j) (l.get ⟨j, h⟩) := by
  intro l
  induction l with
  | nil => intro i j h h2; exact absurd h (by simp)
  | cons x xs ih =>
    intro i j h h2
    cases j with
    | zero => rfl
    | succ j0 =>
      have hx : j0 < xs.length := by simpa using h
      have hx2 : j0 < (jsMapIGo f (i + 1) xs).length := by
        rw [jsMapIGo_length]; exact hx
      show (jsMapIGo f (i + 1) xs).get ⟨j0, hx2⟩ = _
      rw [ih (i + 1) j0 hx hx2]
      congr 1
      omega

/-- Length of `jsMapI`. -/
lemma jsMapI_length (f : Nat → α → β) (l : List α) : (jsMapI f l).length = l.length :=
  jsMapIGo_length f l 0

/-- Entries of `jsMapI`. -/
lemma jsMapI_get (f : Nat → α → β) (l : List α) (j : Nat) (h : j < l.length)
    (h2 : j < (jsMapI f l).length) :
    (jsMapI f l).get ⟨j, h2⟩ = f j (l.get ⟨j, h⟩) := by
  have := jsMapIGo_get f l 0 j h h2
  simpa using this

/-- Closed form of a separator join: the head followed by each tail
element prefixed with the separator. -/
lemma joinSep_eq (sep : Str) :
    ∀ (ts : List Str) (h : Str),
      joinSep sep (h :: ts) = h ++ (ts.map (fun s => sep ++ s)).flatten := by
  intro ts
  induction ts with
  | nil => intro h; simp [joinSep]
  | cons y ys ih =>
    intro h
    show h ++ sep ++ joinSep sep (y :: ys) = _
    rw [ih y]
    simp [List.append_assoc]

/-- An indexed map that ignores the elements is a map over the index
range. -/
lemma jsMapI_const_range (g : Nat → β) (l : List α) :
    jsMapI (fun i _ => g i) l = (List.range l.length).map g := by
  apply List.ext_get
  · simp [jsMapI_length]
  · intro j h1 h2
    rw [jsMapI_get _ _ j (by simpa [jsMapI_length] using h1) h1]
    rw [List.get_eq_getElem, List.getElem_map, List.getElem_range]

/-- With non-empty keywords, a non-empty chapters string and an in-range
parsed chapter count, the /generate-book handler passes validation and
runs the pipeline stages. -/
lemma generateBookRoute_valid (o : RemoteOracle) (k c : Str) (n : Int)
    (hk : k ≠ []) (hc : c ≠ []) (hn : parseIntJS c = some n) (h3 : 3 ≤ n) (h15 : n ≤ 15) :
    generateBookRoute o (some k) (some c) = runStages o k := by
  have hlt : ¬ n < 3 := by omega
  have hgt : ¬ (15 : Int) < n := by omega
  simp [generateBookRoute, hk, hc, hn, decide_eq_false hlt, decide_eq_false hgt]

/-- With a non-empty overview reply and an outline reply from which
extraction recovers a JSON array, the pipeline reaches the chapter
stage. -/
lemma runStages_to_chapters (o : RemoteOracle) (k ov oraw : Str) (metas : List Json) (ix : Nat)
    (hov : o.overviewRaw = some ov) (hovne : ov ≠ [])
    (horaw : o.outlineRaw = some oraw)
    (hex : extractJSON oraw = some (Json.arr metas, ix)) :
    runStages o k = runChapters o k ov (Json.arr metas) := by
  simp [runStages, hov, hovne, generateChapterOutline, horaw, hex]

/-- When every chapter call returns a non-empty text, the falsy check on
the joined chapter results is false. -/
lemma chapters_all_ok (o : RemoteOracle) (metas : List Json) (texts : Nat → Str)
    (hch : ∀ i, i < metas.length → o.chapterRaw (i + 1) = some (texts i))
    (hne : ∀ i, i < metas.length → texts i ≠ []) :
    (jsMapI (fun i _ => o.chapterRaw (i + 1)) metas).any optStrFalsy = false := by
  rw [List.any_eq_false]
  intro x hx
  rw [List.mem_iff_get] at hx
  obtain ⟨⟨j, hj⟩, hget⟩ := hx
  have hj2 : j < metas.length := by
    rw [jsMapI_length] at hj; exact hj
  rw [jsMapI_get _ _ j hj2 hj] at hget
  rw [← hget, hch j hj2]
  simp [optStrFalsy, hne j hj2]

/-- When some chapter call within the outline range returns a falsy
result, the falsy check on the joined chapter results is true. -/
lemma chapters_one_falsy (o : RemoteOracle) (metas : List Json) (i : Nat)
    (hi : i < metas.length) (hfail : optStrFalsy (o.chapterRaw (i + 1)) = true) :
    (jsMapI (fun i _ => o.chapterRaw (i + 1)) metas).any optStrFalsy = true := by
  rw [List.any_eq_true]
  have hi2 : i < (jsMapI (fun i _ => o.chapterRaw (i + 1)) metas).length := by
    rw [jsMapI_length]; exact hi
  refine ⟨(jsMapI (fun i _ => o.chapterRaw (i + 1)) metas).get ⟨i, hi2⟩,
    List.get_mem _ _ _, ?_⟩
  rw [jsMapI_get _ _ i hi hi2]
  exact hfail

/-- Entries of an indexed map, bracket form. -/
lemma jsMapI_getElem (f : Nat → α → β) (l : List α) (j : Nat) (h : j < l.length)
    (h2 : j < (jsMapI f l).length) : (jsMapI f l)[j] = f j (l[j]) :=
  jsMapI_get f l j h h2

/-- On the success path the i-th joined chapter text, read back with a
default, is the i-th chapter payload. -/
lemma chapters_getD (o : RemoteOracle) (metas : List Json) (texts : Nat → Str)
    (hch : ∀ i, i < metas.length → o.chapterRaw (i + 1) = some (texts i))
    (j : Nat) (h : j < metas.length) :
    ((jsMapI (fun i _ => o.chapterRaw (i + 1)) metas).map (fun cc => cc.getD [])).getD j []
      = texts j := by
  have h2 : j < (jsMapI (fun i _ => o.chapterRaw (i + 1)) metas).length := by
    rw [jsMapI_length]; exact h
  have h3 : j < ((jsMapI (fun i _ => o.chapterRaw (i + 1)) metas).map
      (fun cc => cc.getD [])).length := by
    simpa using h2
  rw [List.getD_eq_getElem _ _ h3, List.getElem_map, jsMapI_getElem _ _ j h h2, hch j h]
  rfl

/-- On the success path the assembled chapter sections are, pointwise, the
chapter heading, synopsis epigraph and chapter text for each outline
position. -/
lemma sections_closed_form (o : RemoteOracle) (metas : List Json)
    (titles syns texts : Nat → Str)
    (htit : ∀ i (h : i < metas.length),
      getField (metas.get ⟨i, h⟩) (js "title") = some (Json.str (titles i)))
    (hsyn : ∀ i (h : i < metas.length),
      getField (metas.get ⟨i, h⟩) (js "synopsis") = some (Json.str (syns i)))
    (hch : ∀ i, i < metas.length → o.chapterRaw (i + 1) = some (texts i)) :
    jsMapI (fun i m => sectionStr i m
        (((jsMapI (fun i _ => o.chapterRaw (i + 1)) metas).map (fun cc => cc.getD [])).getD i []))
      metas =
    (List.range metas.length).map (fun i =>
      js "\n---\n\n# Chapter " ++ natToStr (i + 1) ++ js ": " ++ titles i ++
        js "\n\n*" ++ syns i ++ js "*\n\n" ++ texts i) := by
  apply List.ext_get
  · simp [jsMapI_length]
  · intro j h1 h2
    have hj : j < metas.length := by
      rw [jsMapI_length] at h1; exact h1
    rw [jsMapI_get _ _ j hj h1, chapters_getD o metas texts hch j hj]
    have hr : ((List.range metas.length).map (fun i =>
        js "\n---\n\n# Chapter " ++ natToStr (i + 1) ++ js ": " ++ titles i ++
          js "\n\n*" ++ syns i ++ js "*\n\n" ++ texts i)).get ⟨j, h2⟩ =
        js "\n---\n\n# Chapter " ++ natToStr (j + 1) ++ js ": " ++ titles j ++
          js "\n\n*" ++ syns j ++ js "*\n\n" ++ texts j := by
      rw [List.get_eq_getElem, List.getElem_map, List.getElem_range]
    rw [hr]
    have ht := htit j hj
    have hs := hsyn j hj
    rw [List.get_eq_getElem] at ht hs
    simp [sectionStr, ht, hs, jsDisplay, jsDisplayVal]

/-- Full characterization of a successful /generate-book run: response,
persisted records and call log. -/
lemma generateBook_success_run (o : RemoteOracle) (k c : Str) (n : Int) (ov oraw : Str)
    (metas : List Json) (ix : Nat) (titles syns texts : Nat → Str)
    (hk : k ≠ []) (hc : c ≠ [])
    (hn : parseIntJS c = some n) (h3 : 3 ≤ n) (h15 : n ≤ 15)
    (hov : o.overviewRaw = some ov) (hovne : ov ≠ [])
    (horaw : o.outlineRaw = some oraw)
    (hex : extractJSON oraw = some (Json.arr metas, ix))
    (hm : metas ≠ [])
    (htit : ∀ i (h : i < metas.length),
      getField (metas.get ⟨i, h⟩) (js "title") = some (Json.str (titles i)))
    (hsyn : ∀ i (h : i < metas.length),
      getField (metas.get ⟨i, h⟩) (js "synopsis") = some (Json.str (syns i)))
    (hch : ∀ i, i < metas.length → o.chapterRaw (i + 1) = some (texts i))
    (hne : ∀ i, i < metas.length → texts i ≠ []) :
    generateBookRoute o (some k) (some c) =
      ⟨Except.ok (Resp.okSlug (bookSlug k (titles 0))),
       [(js "book-overview:" ++ bookSlug k (titles 0), ov),
        (js "book-outline:" ++ bookSlug k (titles 0), jsonStringify (Json.arr metas)),
        (js "book-full:" ++ bookSlug k (titles 0),
          bookFull ov (titles 0) metas.length titles syns texts)],
       [StageCall.overview, StageCall.outline] ++
         (List.range metas.length).map (fun i => StageCall.chapter (i + 1))⟩ := by
  rw [generateBookRoute_valid o k c n hk hc hn h3 h15,
    runStages_to_chapters o k ov oraw metas ix hov hovne horaw hex]
  have hany := chapters_all_ok o metas texts hch hne
  have hrc : runChapters o k ov (Json.arr metas) =
      assembleAndStore k ov metas
        ((jsMapI (fun i _ => o.chapterRaw (i + 1)) metas).map (fun cc => cc.getD []))
        ([StageCall.overview, StageCall.outline] ++
          jsMapI (fun i _ => StageCall.chapter (i + 1)) metas) := by
    simp [runChapters, hany]
  rw [hrc, jsMapI_const_range (fun i => StageCall.chapter (i + 1)) metas]
  have hsec := sections_closed_form o metas titles syns texts htit hsyn hch
  obtain ⟨m0, rest, rfl⟩ : ∃ m0 rest, metas = m0 :: rest := by
    cases metas with
    | nil => exact absurd rfl hm
    | cons a b => exact ⟨a, b, rfl⟩
  have ht0 : getField m0 (js "title") = some (Json.str (titles 0)) := htit 0 (by simp)
  show assembleAndStore k ov (m0 :: rest) _ _ = _
  simp only [assembleAndStore, ht0]
  rw [hsec]
  rw [joinSep_eq (js "\n") ((List.range (m0 :: rest).length).map (fun i =>
      js "\n---\n\n# Chapter " ++ natToStr (i + 1) ++ js ": " ++ titles i ++
        js "\n\n*" ++ syns i ++ js "*\n\n" ++ texts i)) _]
  rw [List.map_map]
  rw [List.map_congr_left (fun i _ =>
    (rfl : ((fun s => js "\n" ++ s) ∘ (fun i =>
      js "\n---\n\n# Chapter " ++ natToStr (i + 1) ++ js ": " ++ titles i ++
        js "\n\n*" ++ syns i ++ js "*\n\n" ++ texts i)) i =
      js "\n\n---\n\n# Chapter " ++ natToStr (i + 1) ++ js ": " ++ titles i ++
        js "\n\n*" ++ syns i ++ js "*\n\n" ++ texts i))]
  simp only [bookSlug, bookFull, List.append_assoc]
  rfl

/-- C4 (amended): a successful /generate-book run stores exactly three
records under the single derived slug — book-overview, book-outline and
book-full — and the stored full book is the title heading and overview
section followed by the chapter headings "# Chapter 1: …" through
"# Chapter M: …" in outline order, each followed by its synopsis epigraph
and chapter text, where M is the number of entries in the extracted
outline (M equals the requested count N whenever the outline stage
returns exactly N entries, which the orchestrator does not enforce). -/
theorem generateBook_success_shape (o : RemoteOracle) (k c : Str) (n : Int) (ov oraw : Str)
    (metas : List Json) (ix : Nat) (titles syns texts : Nat → Str)
    (hk : k ≠ []) (hc : c ≠ [])
    (hn : parseIntJS c = some n) (h3 : 3 ≤ n) (h15 : n ≤ 15)
    (hov : o.overviewRaw = some ov) (hovne : ov ≠ [])
    (horaw : o.outlineRaw = some oraw)
    (hex : extractJSON oraw = some (Json.arr metas, ix))
    (hm : metas ≠ [])
    (htit : ∀ i (h : i < metas.length),
      getField (metas.get ⟨i, h⟩) (js "title") = some (Json.str (titles i)))
    (hsyn : ∀ i (h : i < metas.length),
      getField (metas.get ⟨i, h⟩) (js "synopsis") = some (Json.str (syns i)))
    (hch : ∀ i, i < metas.length → o.chapterRaw (i + 1) = some (texts i))
    (hne : ∀ i, i < metas.length → texts i ≠ []) :
    ∃ S, (generateBookRoute o (some k) (some c)).response = Except.ok (Resp.okSlug S) ∧
      (generateBookRoute o (some k) (some c)).writes =
        [(js "book-overview:" ++ S, ov),
         (js "book-outline:" ++ S, jsonStringify (Json.arr metas)),
         (js "book-full:" ++ S, bookFull ov (titles 0) metas.length titles syns texts)] := by
  refine ⟨bookSlug k (titles 0), ?_, ?_⟩ <;>
    rw [generateBook_success_run o k c n ov oraw metas ix titles syns texts
      hk hc hn h3 h15 hov hovne horaw hex hm htit hsyn hch hne]

/-- C4 witness: a concrete successful run stores the three records under
one slug with the closed-form full book. -/
theorem generateBook_success_shape_witness :
    ∃ S, (generateBookRoute shortOutlineOracle (some (js "fungi, sustainability"))
            (some (js "3"))).response = Except.ok (Resp.okSlug S) ∧
      (generateBookRoute shortOutlineOracle (some (js "fungi, sustainability"))
            (some (js "3"))).writes =
        [(js "book-overview:" ++ S, js "OV"),
         (js "book-outline:" ++ S, jsonStringify (Json.arr [Json.obj
            [(js "title", Json.str (js "Mushrooms")), (js "synopsis", Json.str (js "Syn"))]])),
         (js "book-full:" ++ S,
          bookFull (js "OV") (js "Mushrooms")
            [Json.obj [(js "title", Json.str (js "Mushrooms")),
                       (js "synopsis", Json.str (js "Syn"))]].length
            (fun _ => js "Mushrooms") (fun _ => js "Syn") (fun _ => js "TXT"))] :=
  generateBook_success_shape shortOutlineOracle (js "fungi, sustainability") (js "3") 3
    (js "OV") (js "[\x7b\"title\":\"Mushrooms\",\"synopsis\":\"Syn\"\x7d]")
    [Json.obj [(js "title", Json.str (js "Mushrooms")), (js "synopsis", Json.str (js "Syn"))]]
    0 (fun _ => js "Mushrooms") (fun _ => js "Syn") (fun _ => js "TXT")
    (by decide) (by decide) rfl (by norm_num) (by norm_num) rfl (by decide) rfl rfl
    (by simp)
    (fun i h => by
      obtain rfl : i = 0 := by simp at h; omega
      rfl)
    (fun i h => by
      obtain rfl : i = 0 := by simp at h; omega
      rfl)
    (fun i h => rfl)
    (fun i h => by
      show js "TXT" ≠ []
      decide)

/-- C4 counterexample: with a valid chapter count of 3 the run succeeds
and stores three records, but the remote outline had a single entry, so
the stored full book contains a "# Chapter 1:" heading and no
"# Chapter 2" heading — the chapter headings do not run up to N. -/
theorem generateBook_short_outline_cex :
    (generateBookRoute shortOutlineOracle (some (js "fungi, sustainability"))
        (some (js "3"))).response = Except.ok (Resp.okSlug (js "mushrooms")) ∧
    ((generateBookRoute shortOutlineOracle (some (js "fungi, sustainability"))
        (some (js "3"))).writes.map Prod.fst) =
      [js "book-overview:mushrooms", js "book-outline:mushrooms", js "book-full:mushrooms"] ∧
    (generateBookRoute shortOutlineOracle (some (js "fungi, sustainability"))
        (some (js "3"))).writes.any (fun w => hasSegment (js "# Chapter 1:") w.2) = true ∧
    (generateBookRoute shortOutlineOracle (some (js "fungi, sustainability"))
        (some (js "3"))).writes.any (fun w => hasSegment (js "# Chapter 2") w.2) = false :=
  ⟨rfl, rfl, rfl, rfl⟩

/-- C9 (amended): a successful pipeline run issues exactly one chapter
call per extracted outline entry, in outline order, the 1-based chapter
index of each call matching its outline position; the outline length
equals the requested count only when the remote returns that many
entries, which is not re-validated. -/
theorem pipeline_chapter_calls_match_outline (o : RemoteOracle) (k c : Str) (n : Int)
    (ov oraw : Str) (metas : List Json) (ix : Nat) (titles syns texts : Nat → Str)
    (hk : k ≠ []) (hc : c ≠ [])
    (hn : parseIntJS c = some n) (h3 : 3 ≤ n) (h15 : n ≤ 15)
    (hov : o.overviewRaw = some ov) (hovne : ov ≠ [])
    (horaw : o.outlineRaw = some oraw)
    (hex : extractJSON oraw = some (Json.arr metas, ix))
    (hm : metas ≠ [])
    (htit : ∀ i (h : i < metas.length),
      getField (metas.get ⟨i, h⟩) (js "title") = some (Json.str (titles i)))
    (hsyn : ∀ i (h : i < metas.length),
      getField (metas.get ⟨i, h⟩) (js "synopsis") = some (Json.str (syns i)))
    (hch : ∀ i, i < metas.length → o.chapterRaw (i + 1) = some (texts i))
    (hne : ∀ i, i < metas.length → texts i ≠ []) :
    (generateBookRoute o (some k) (some c)).response =
      Except.ok (Resp.okSlug (bookSlug k (titles 0))) ∧
    (generateBookRoute o (some k) (some c)).callLog =
      [StageCall.overview, StageCall.outline] ++
        (List.range metas.length).map (fun i => StageCall.chapter (i + 1)) := by
  rw [generateBook_success_run o k c n ov oraw metas ix titles syns texts
    hk hc hn h3 h15 hov hovne horaw hex hm htit hsyn hch hne]
  exact ⟨rfl, rfl⟩

/-- C9 witness: the concrete successful run issues its chapter calls in
outline order with matching 1-based indices. -/
theorem pipeline_chapter_calls_match_outline_witness :
    (generateBookRoute shortOutlineOracle (some (js "fungi, sustainability"))
        (some (js "3"))).response =
      Except.ok (Resp.okSlug (bookSlug (js "fungi, sustainability") (js "Mushrooms"))) ∧
    (generateBookRoute shortOutlineOracle (some (js "fungi, sustainability"))
        (some (js "3"))).callLog =
      [StageCall.overview, StageCall.outline] ++
        (List.range [Json.obj [(js "title", Json.str (js "Mushrooms")),
                               (js "synopsis", Json.str (js "Syn"))]].length).map
          (fun i => StageCall.chapter (i + 1)) :=
  pipeline_chapter_calls_match_outline shortOutlineOracle (js "fungi, sustainability")
    (js "3") 3 (js "OV") (js "[\x7b\"title\":\"Mushrooms\",\"synopsis\":\"Syn\"\x7d]")
    [Json.obj [(js "title", Json.str (js "Mushrooms")), (js "synopsis", Json.str (js "Syn"))]]
    0 (fun _ => js "Mushrooms") (fun _ => js "Syn") (fun _ => js "TXT")
    (by decide) (by decide) rfl (by norm_num) (by norm_num) rfl (by decide) rfl rfl
    (by simp)
    (fun i h => by
      obtain rfl : i = 0 := by simp at h; omega
      rfl)
    (fun i h => by
      obtain rfl : i = 0 := by simp at h; omega
      rfl)
    (fun i h => rfl)
    (fun i h => by
      show js "TXT" ≠ []
      decide)

/-- C9 counterexample: with chapters = 3 the outline stage returned a
single-entry array, the run still succeeded and issued exactly one chapter
call — the outline length is not the requested N. -/
theorem pipeline_outline_length_cex :
    generateChapterOutline shortOutlineOracle.outlineRaw =
      Except.ok (some (Json.arr [Json.obj [(js "title", Json.str (js "Mushrooms")),
                                           (js "synopsis", Json.str (js "Syn"))]])) ∧
    (generateBookRoute shortOutlineOracle (some (js "fungi, sustainability"))
        (some (js "3"))).response = Except.ok (Resp.okSlug (js "mushrooms")) ∧
    (generateBookRoute shortOutlineOracle (some (js "fungi, sustainability"))
        (some (js "3"))).callLog =
      [StageCall.overview, StageCall.outline, StageCall.chapter 1] ∧
    parseIntJS (js "3") = some 3 ∧
    [Json.obj [(js "title", Json.str (js "Mushrooms")),
               (js "synopsis", Json.str (js "Syn"))]].length ≠ 3 :=
  ⟨rfl, rfl, rfl, rfl, by decide⟩

/-- C5: when any chapter call within the outline range returns a falsy
result, the handler responds 503 "One or more chapters failed" and
performs no store writes. -/
theorem generateBook_chapter_failure_no_writes (o : RemoteOracle) (k c : Str) (n : Int)
    (ov oraw : Str) (metas : List Json) (ix i : Nat)
    (hk : k ≠ []) (hc : c ≠ [])
    (hn : parseIntJS c = some n) (h3 : 3 ≤ n) (h15 : n ≤ 15)
    (hov : o.overviewRaw = some ov) (hovne : ov ≠ [])
    (horaw : o.outlineRaw = some oraw)
    (hex : extractJSON oraw = some (Json.arr metas, ix))
    (hi : i < metas.length)
    (hfail : optStrFalsy (o.chapterRaw (i + 1)) = true) :
    (generateBookRoute o (some k) (some c)).response =
        Except.ok (Resp.serviceUnavailable (js "One or more chapters failed")) ∧
    (generateBookRoute o (some k) (some c)).writes = [] := by
  rw [generateBookRoute_valid o k c n hk hc hn h3 h15,
    runStages_to_chapters o k ov oraw metas ix hov hovne horaw hex]
  have hany := chapters_one_falsy o metas i hi hfail
  simp [runChapters, hany]

/-- C5 witness: a two-entry outline whose second chapter call fails all
its attempts yields the 503 and an empty write set. -/
theorem generateBook_chapter_failure_no_writes_witness :
    (generateBookRoute chapterFailOracle (some (js "fungi")) (some (js "3"))).response =
        Except.ok (Resp.serviceUnavailable (js "One or more chapters failed")) ∧
    (generateBookRoute chapterFailOracle (some (js "fungi")) (some (js "3"))).writes = [] :=
  generateBook_chapter_failure_no_writes chapterFailOracle (js "fungi") (js "3") 3
    (js "OV") (js "[\"a\",\"b\"]") [Json.str (js "a"), Json.str (js "b")] 0 1
    (by decide) (by decide) rfl (by norm_num) (by norm_num) rfl (by decide) rfl rfl
    (by norm_num) rfl

/-- C7 (amended): a request whose keywords or chapters field is missing or
empty, or whose chapters string parses to a number outside [3,15], is
rejected with a 400 before any remote call and without any store write;
a chapters string whose parse yields NaN is not rejected (see the
counterexample). -/
theorem generateBook_validation_rejects (o : RemoteOracle) (keywords chapters : Option Str)
    (h : keywords = none ∨ keywords = some [] ∨ chapters = none ∨ chapters = some [] ∨
         ∃ c nn, chapters = some c ∧ parseIntJS c = some nn ∧ (nn < 3 ∨ 15 < nn)) :
    ∃ m, generateBookRoute o keywords chapters =
      ⟨Except.ok (Resp.badRequest m), [], []⟩ := by
  rcases h with h | h | h | h | ⟨c, nn, hcc, hp, hr⟩
  · subst h; cases chapters <;> exact ⟨_, rfl⟩
  · subst h
    cases chapters with
    | none => exact ⟨_, rfl⟩
    | some c => exact ⟨js "keywords and chapters required", by simp [generateBookRoute]⟩
  · subst h
    cases keywords with
    | none => exact ⟨_, rfl⟩
    | some k => exact ⟨_, rfl⟩
  · subst h
    cases keywords with
    | none => exact ⟨_, rfl⟩
    | some k => exact ⟨js "keywords and chapters required", by simp [generateBookRoute]⟩
  · subst hcc
    cases keywords with
    | none => exact ⟨_, rfl⟩
    | some k =>
      by_cases hke : k = []
      · exact ⟨js "keywords and chapters required", by simp [generateBookRoute, hke]⟩
      · refine ⟨js "chapters must be 3-15", ?_⟩
        have hcne : ¬ c = [] := by
          intro hce
          subst hce
          simp [parseIntJS] at hp
        rcases hr with hr | hr
        · simp [generateBookRoute, hke, hcne, hp, decide_eq_true hr]
        · simp [generateBookRoute, hke, hcne, hp, decide_eq_true hr]

/-- C7 witness: chapters = "20" is rejected with a 400, no remote call and
no write. -/
theorem generateBook_validation_rejects_witness :
    ∃ m, generateBookRoute overviewFailOracle (some (js "fungi")) (some (js "20")) =
      ⟨Except.ok (Resp.badRequest m), [], []⟩ :=
  generateBook_validation_rejects overviewFailOracle (some (js "fungi")) (some (js "20"))
    (Or.inr (Or.inr (Or.inr (Or.inr ⟨js "20", 20, rfl, rfl, Or.inr (by norm_num)⟩))))

/-- C7 counterexample: chapters = "abc" parses to NaN, both range
comparisons are false, so validation passes and the handler issues a
remote overview call before answering — the response is a 503 from the
overview stage, not a 400. -/
theorem generateBook_nan_chapters_cex :
    parseIntJS (js "abc") = none ∧
    generateBookRoute overviewFailOracle (some (js "fungi")) (some (js "abc")) =
      ⟨Except.ok (Resp.serviceUnavailable (js "Overview generation failed")), [],
       [StageCall.overview]⟩ ∧
    ([StageCall.overview] : List StageCall) ≠ [] :=
  ⟨rfl, rfl, by simp⟩

/-- C6: after persisting the three records for slug "mybook", the full
book downloads at mybook.md, but mybook-overview.md and
mybook-outline.json both answer 404, because the route strips only the
extension and looks up keys book-overview:mybook-overview and
book-outline:mybook-outline, which the persist stage never writes. -/
theorem downloadRoute_overview_404 :
    persistedStoreC6 (js "book-overview:mybook") = some (js "OV") ∧
    persistedStoreC6 (js "book-outline:mybook") = some (js "OL") ∧
    downloadRoute persistedStoreC6 (js "mybook-overview.md") = DlResp.notFound ∧
    downloadRoute persistedStoreC6 (js "mybook-outline.json") = DlResp.notFound ∧
    downloadRoute persistedStoreC6 (js "mybook.md") =
      DlResp.file (js "text/markdown") (js "mybook.md") (js "FB") ∧
    downloadRoute persistedStoreC6 (js "absent.md") = DlResp.notFound :=
  ⟨rfl, rfl, rfl, rfl, rfl, rfl⟩

/-- C10: the /assemble-book handler is not total over requests passing its
field-presence check: with overview, outline and chaptersRaw all present
and truthy, an empty outline array makes `outline[0].title` throw a
TypeError, and an outline whose first title head is empty with keywords
absent makes `keywords.split` throw a TypeError; no response is sent. -/
theorem assembleBook_not_total :
    jsOptFalsy (some (Json.str (js "ov"))) = false ∧
    jsOptFalsy (some (Json.arr [])) = false ∧
    assembleBookRoute (some (Json.str (js "ov"))) (some (Json.arr []))
      (some (Json.arr [])) none = Except.error JsError.typeError ∧
    assembleBookRoute (some (Json.str (js "ov")))
      (some (Json.arr [Json.obj [(js "title", Json.str (js " – x"))]]))
      (some (Json.arr [Json.str (js "c")])) none = Except.error JsError.typeError :=
  ⟨rfl, rfl, rfl, rfl⟩
